import Mathlib

/-!
Verification of the temporal-state vector interface of the xbraid/warp
hyperdrive example (1-D advection–diffusion discretization) and its
conformance test harness.

The repository files `src/examples/hyperdrive/advect_data.h` and
`src/warp_test.h` declare the data model (`grid_fcn`, `advection_setup`)
and the operation/test signatures; the function bodies live outside the
provided sources, so each operation below is modelled from the
specification's description of its contract, faithful to the spec's
words.  Real-valued data is embedded as `ℚ` (exact arithmetic standing
for the floating-point doubles of the source).
-/

/-- Boundary-condition kind, from `enum bcType` in advect_data.h. -/
inductive bcType where
  | Periodic
  | Dirichlet
  | Extrapolation
deriving DecidableEq, Repr

/-- State vector `grid_fcn` from advect_data.h: one real-valued sequence
`sol` of length `n`, grid spacing `h`, and an optional auxiliary
container `vsol_`. -/
structure grid_fcn where
  sol : List ℚ
  n : ℕ
  h : ℚ
  vsol_ : List ℚ
deriving DecidableEq, Repr, Inhabited

/-- Modelled from the spec: the Operator Table Builder produces, for a
given accuracy order, a deterministic dense coefficient table for the
SBP difference operators (interior and boundary-closure stencils); the
spec gives the shape and determinism, not the entries, so a standard
central interior stencil row stands for the table contents.  Missing
from src/: the builder bodies (`bop6g`, `diffusion_coeff_4`,
`diffusion_coeff_6`). -/
def buildOperatorTables (order : ℕ) : List (List ℚ) :=
  if order = 6 then
    [[-1/60, 3/20, -3/4, 0, 3/4, -3/20, 1/60]]
  else
    [[1/12, -2/3, 0, 2/3, -1/12]]

/-- Discretization context `advection_setup` from advect_data.h (the
fields the specified contracts mention); `testfcn` is modelled from the
spec's analytic solution family `exact1` (amplitude/phase/frequency
parameterized manufactured solution), kept abstract as a sampling
function of position and time since its closed form is transcendental. -/
structure advection_setup where
  n_fine : ℕ
  h_fine : ℚ
  dt_fine : ℚ
  amp : ℚ
  ph : ℚ
  om : ℚ
  pnr : ℤ
  taylorbc : ℤ
  L : ℚ
  c_coeff : ℚ
  nu_coeff : ℚ
  restr_coeff : ℚ
  ad_coeff : ℚ
  bcLeft : bcType
  bcRight : bcType
  warpMaxIter : ℤ
  warpResidualLevel : ℚ
  bop_ : List (List ℚ)
  testfcn : ℚ → ℚ → ℚ
  tstart : ℚ
  tstop : ℚ
  nsteps : ℤ

/-- Modelled from the spec: `init_grid_fcn(t)` allocates a new state on
the finest grid and evaluates the exact/test solution at time `t`.
Missing from src/: the body of `init_grid_fcn`. -/
def init_grid_fcn (kd : advection_setup) (t : ℚ) : grid_fcn :=
  { sol := (List.range kd.n_fine).map (fun i : ℕ => kd.testfcn ((i : ℚ) * kd.h_fine) t)
    n := kd.n_fine
    h := kd.h_fine
    vsol_ := [] }

/-- Modelled from the spec: `copy_grid_fcn` produces an independent copy
of a state vector.  Missing from src/: the body of `copy_grid_fcn`. -/
def copy_grid_fcn (_kd : advection_setup) (u : grid_fcn) : grid_fcn :=
  { sol := u.sol, n := u.n, h := u.h, vsol_ := u.vsol_ }

/-- Modelled from the spec: `sum_grid_fcn` computes the in-place affine
combination `y ← α·x + β·y`, element-wise over `sol`; the embedding
returns the updated `y`.  Missing from src/: the body of
`sum_grid_fcn`. -/
def sum_grid_fcn (_kd : advection_setup) (alpha : ℚ) (x : grid_fcn)
    (beta : ℚ) (y : grid_fcn) : grid_fcn :=
  { y with sol := List.zipWith (fun a b => alpha * a + beta * b) x.sol y.sol }

/-- SBP quadrature weight for row `i` of an `n`-point grid: interior
weight 1, halved at the two boundary rows (the boundary quadrature
weight correction of the SBP norm, per the spec). -/
def sbpWeight (nv : ℕ) (i : ℕ) : ℚ :=
  if i = 0 ∨ i = nv - 1 then 1/2 else 1

/-- Weighted sum of a list starting at row index `i`, mirroring the
quadrature loop of the discrete inner product. -/
def wsum (w : ℕ → ℚ) : ℕ → List ℚ → ℚ
  | _, [] => 0
  | i, a :: rest => w i * a + wsum w (i + 1) rest

/-- Modelled from the spec: `dot_grid_fcn` is the discrete inner product
consistent with the SBP quadrature weights — `h` times the weighted sum
of pointwise products, with boundary weight corrections.  Missing from
src/: the body of `dot_grid_fcn`. -/
def dot_grid_fcn (_kd : advection_setup) (u v : grid_fcn) : ℚ :=
  u.h * wsum (sbpWeight u.sol.length) 0 (List.zipWith (fun a b => a * b) u.sol v.sol)

/-- Modelled from the spec: `gridfcn_BufSize` returns an upper bound on
the serialized byte length of one state vector (header plus one double
per finest-grid point, 8 bytes each).  Missing from src/: the body of
`gridfcn_BufSize`. -/
def gridfcn_BufSize (kd : advection_setup) : ℕ :=
  8 * (2 + kd.n_fine)

/-- Modelled from the spec: `gridfcn_BufPack` writes exactly the state
into a caller-supplied buffer, here a sequence of 8-byte cells holding
`n`, `h`, then the `sol` data, with no lossy encoding.  Missing from
src/: the body of `gridfcn_BufPack`. -/
def gridfcn_BufPack (_kd : advection_setup) (u : grid_fcn) : List ℚ :=
  (u.n : ℚ) :: u.h :: u.sol

/-- Number of bytes `gridfcn_BufPack` writes: 8 bytes per buffer cell. -/
def bufPackBytes (kd : advection_setup) (u : grid_fcn) : ℕ :=
  8 * (gridfcn_BufPack kd u).length

/-- Modelled from the spec: `gridfcn_BufUnpack` reconstructs a new state
from a packed buffer.  Missing from src/: the body of
`gridfcn_BufUnpack`. -/
def gridfcn_BufUnpack (_kd : advection_setup) (buffer : List ℚ) : grid_fcn :=
  match buffer with
  | nq :: hq :: rest => { sol := rest, n := nq.num.toNat, h := hq, vsol_ := [] }
  | _ => { sol := [], n := 0, h := 0, vsol_ := [] }

/-- Modelled from the spec: `gridfcn_Coarsen` produces a
reduced-resolution representation by every-other-point spatial
restriction, independent of the time-bound arguments, which are
accepted only for interface uniformity.  Missing from src/: the body of
`gridfcn_Coarsen`. -/
def gridfcn_Coarsen (_kd : advection_setup)
    (_tstart _f_tminus _f_tplus _c_tminus _c_tplus : ℚ)
    (fu : grid_fcn) : grid_fcn :=
  { sol := (fu.sol.enum.filter (fun p => p.1 % 2 = 0)).map (fun p => p.2)
    n := (fu.n + 1) / 2
    h := 2 * fu.h
    vsol_ := [] }

/-- Linear interpolation midpoints: `interleave` rebuilds a fine list
from coarse values, inserting the average of each adjacent pair. -/
def interleave : List ℚ → List ℚ
  | [] => []
  | [a] => [a]
  | a :: b :: rest => a :: (a + b) / 2 :: interleave (b :: rest)

/-- Modelled from the spec: `gridfcn_Refine` produces a finer-resolution
representation from a coarse one by interpolation, independent of the
time-bound arguments.  Missing from src/: the body of
`gridfcn_Refine`. -/
def gridfcn_Refine (_kd : advection_setup)
    (_tstart _f_tminus _f_tplus _c_tminus _c_tplus : ℚ)
    (cu : grid_fcn) : grid_fcn :=
  { sol := interleave cu.sol
    n := 2 * cu.n - 1
    h := cu.h / 2
    vsol_ := [] }

/-- The grid-spacing invariant of the data model: `h = L/(n-1)` for the
domain length `L` held in the context. -/
def gridConsistent (kd : advection_setup) (g : grid_fcn) : Prop :=
  g.h = kd.L / ((g.n : ℚ) - 1)

instance (kd : advection_setup) (g : grid_fcn) :
    Decidable (gridConsistent kd g) := by
  unfold gridConsistent; infer_instance

/-- Heap of live state vectors.  The C interface hands out exclusively
owned `grid_fcn *` handles; the embedding models a handle as an index
into this store, so that in-place mutation and aliasing are explicit. -/
def Store := List grid_fcn

/-- Look up the state vector held by a handle. -/
def store_get (s : Store) (hdl : ℕ) : grid_fcn :=
  List.getD s hdl default

/-- Allocate a fresh handle holding `copy_grid_fcn` of the vector at
`hu`; returns the new store and the clone's handle. -/
def store_clone (kd : advection_setup) (s : Store) (hu : ℕ) : Store × ℕ :=
  (List.append s [copy_grid_fcn kd (store_get s hu)], List.length s)

/-- In-place `Sum` at the store level: overwrite the vector at handle
`hy` with `sum_grid_fcn alpha x beta y`, reading `x` from handle `hx`. -/
def store_sum (kd : advection_setup) (alpha : ℚ) (hx : ℕ) (beta : ℚ)
    (hy : ℕ) (s : Store) : Store :=
  List.set s hy (sum_grid_fcn kd alpha (store_get s hx) beta (store_get s hy))

/-- Apply a sequence of `Sum` mutations, all targeting handle `hy`;
each list entry supplies `(alpha, hx, beta)`. -/
def store_sums (kd : advection_setup) (ms : List (ℚ × ℕ × ℚ)) (hy : ℕ)
    (s : Store) : Store :=
  ms.foldl (fun st m => store_sum kd m.1 m.2.1 m.2.2 hy st) s

/-- Pointwise `w + c·k` over solution data, one RK4 stage update. -/
def axpy (c : ℚ) (k w : List ℚ) : List ℚ :=
  List.zipWith (fun a b => b + c * a) k w

/-- Largest absolute value in a list (0 for the empty list). -/
def listMaxAbs (l : List ℚ) : ℚ :=
  l.foldl (fun m a => max m |a|) 0

/-- Modelled from the spec: the stepper's local error indicator for one
step; the spec leaves the exact embedded-error formula open, so a
first-versus-last-stage difference scaled by the step size stands in.
Missing from src/: the stepper body. -/
def errInd (dt : ℚ) (k1 k4 : List ℚ) : ℚ :=
  |dt| * listMaxAbs (List.zipWith (fun a b => a - b) k4 k1) / 6

/-- Modelled from the spec: the suggested refinement factor — `1` when
the error indicator meets the accuracy request (step accepted as-is),
otherwise an integer number of times finer the step should be. -/
def rfactOf (err accuracy : ℚ) : ℤ :=
  if err ≤ accuracy then 1 else max 2 ⌈err / accuracy⌉

/-- One classical four-stage RK4 update of the solution data; the
semi-discrete right-hand side `f` may report a non-finite evaluation as
`none`, which propagates.  Returns the advanced data and the local
error indicator. -/
def rk4SolUpdate (f : ℚ → List ℚ → Option (List ℚ)) (t dt : ℚ)
    (w : List ℚ) : Option (List ℚ × ℚ) :=
  (f t w).bind fun k1 =>
  (f (t + dt / 2) (axpy (dt / 2) k1 w)).bind fun k2 =>
  (f (t + dt / 2) (axpy (dt / 2) k2 w)).bind fun k3 =>
  (f (t + dt) (axpy dt k3 w)).map fun k4 =>
    (List.zipWith (fun a b => a + b) w
       ((axpy 2 k2 (axpy 2 k3 (axpy 1 k4 k1))).map (fun a => dt / 6 * a)),
     errInd dt k1 k4)

/-- Modelled from the spec: `explicit_rk4_stepper` advances the state
from `t` to `tend` by four classical RK4 stages (the semi-discrete
right-hand side `dwdt` is the parameter `f`; a non-finite evaluation is
`none`), compares the local error indicator against `accuracy`, and
yields `(status, advanced state, rfact)`: status `0` with the suggested
refinement factor on success, nonzero status on an unrecoverable
numerical condition (non-finite state).  Missing from src/: the body of
`explicit_rk4_stepper`. -/
def explicit_rk4_stepper (_kd : advection_setup)
    (f : ℚ → List ℚ → Option (List ℚ)) (t tend accuracy : ℚ)
    (gf : grid_fcn) : ℤ × grid_fcn × ℤ :=
  match rk4SolUpdate f t (tend - t) gf.sol with
  | some (wnew, err) => (0, { gf with sol := wnew }, rfactOf err accuracy)
  | none => (1, gf, 1)

/-- Configuration error signalled by `init_advection_solver`. -/
inductive ConfigError where
  | inconsistentSteps
deriving DecidableEq, Repr

/-- Modelled from the spec: the CFL / explicit-step-count configuration
is consistent exactly when one (and only one) of the two step-count
sources is usable — a positive explicit step count with the CFL number
disabled, or a positive CFL number with no explicit step count. -/
def stepConfigOK (cfl : ℚ) (nstepsset : Bool) (nsteps : ℤ) : Bool :=
  (nstepsset && decide (0 < nsteps) && !(decide (0 < cfl))) ||
  (!nstepsset && decide (0 < cfl))

/-- Modelled from the spec: `init_advection_solver` populates the
context from the explicit physical/numerical parameters, builds the
operator tables exactly once, and fails fast with a configuration
error on inconsistent CFL/step-count combinations.  Missing from src/:
the body of `init_advection_solver`. -/
def init_advection_solver (h amp ph om : ℚ) (pnr taylorbc : ℤ)
    (L cfl : ℚ) (nstepsset : Bool) (nsteps : ℤ)
    (tfinal wave_speed viscosity : ℚ) (bcLeft bcRight : bcType)
    (warpMaxIter : ℤ) (warpResidualLevel restr_coeff ad_coeff : ℚ)
    (testfcn : ℚ → ℚ → ℚ) : Except ConfigError advection_setup :=
  if stepConfigOK cfl nstepsset nsteps then
    Except.ok
      { n_fine := (L / h).num.toNat + 1
        h_fine := h
        dt_fine := if nstepsset then tfinal / (nsteps : ℚ)
                   else cfl * h / wave_speed
        amp := amp, ph := ph, om := om, pnr := pnr, taylorbc := taylorbc
        L := L, c_coeff := wave_speed, nu_coeff := viscosity
        restr_coeff := restr_coeff, ad_coeff := ad_coeff
        bcLeft := bcLeft, bcRight := bcRight
        warpMaxIter := warpMaxIter, warpResidualLevel := warpResidualLevel
        bop_ := buildOperatorTables 6
        testfcn := testfcn
        tstart := 0, tstop := tfinal
        nsteps := if nstepsset then nsteps
                  else ⌈tfinal / (cfl * h / wave_speed)⌉ }
  else
    Except.error ConfigError.inconsistentSteps

/-- Whether `init_advection_solver` signalled a configuration error. -/
def isConfigError : Except ConfigError advection_setup → Bool
  | Except.error _ => true
  | Except.ok _ => false

/-- Callback type of `warp_PtFcnInit`: initialize a state at time `t`. -/
def PtFcnInit := advection_setup → ℚ → grid_fcn

/-- Callback type of `warp_PtFcnClone`. -/
def PtFcnClone := advection_setup → grid_fcn → grid_fcn

/-- Callback type of `warp_PtFcnSum`. -/
def PtFcnSum := advection_setup → ℚ → grid_fcn → ℚ → grid_fcn → grid_fcn

/-- Callback type of `warp_PtFcnDot`. -/
def PtFcnDot := advection_setup → grid_fcn → grid_fcn → ℚ

/-- Callback type of `warp_PtFcnWrite`; the emitted diagnostic lines
model its side effect. -/
def PtFcnWrite := advection_setup → ℚ → grid_fcn → List String

/-- Callback type of `warp_PtFcnBufSize` (bytes). -/
def PtFcnBufSize := advection_setup → ℕ

/-- Callback type of `warp_PtFcnBufPack`. -/
def PtFcnBufPack := advection_setup → grid_fcn → List ℚ

/-- Callback type of `warp_PtFcnBufUnpack`. -/
def PtFcnBufUnpack := advection_setup → List ℚ → grid_fcn

/-- Callback type of `warp_PtFcnCoarsen` / `warp_PtFcnRefine`. -/
def PtFcnCoarsen := advection_setup → ℚ → ℚ → ℚ → ℚ → ℚ → grid_fcn → grid_fcn

/-- Result of one conformance test entry point: the integer return
value, the log-message lines, and the lines emitted through the write
callback. -/
structure TestResult where
  ret : ℤ
  log : List String
  written : List String
deriving DecidableEq, Repr

/-- Invoke an optional write callback: `none` models passing NULL, in
which case no writing occurs. -/
def optWrite : Option PtFcnWrite → advection_setup → ℚ → grid_fcn → List String
  | none, _, _, _ => []
  | some w, a, t, u => w a t u

/-- Test tolerance `1e-10` used by the conformance checks. -/
def testTol : ℚ := 1 / 10 ^ 10

/-- Modelled from the spec: the resolution-dependent bound for the
coarsen/refine consistency check, shrinking with the fine grid
spacing. -/
def crBound (app : advection_setup) : ℚ :=
  app.h_fine * app.h_fine

/-- Assemble a test result from a list of named checks: return `1` when
every check passes and `0` otherwise, logging a diagnostic naming each
failed check. -/
def runChecks (checks : List (String × Bool)) (written : List String) :
    TestResult :=
  { ret := if checks.all (fun c => c.2) then 1 else 0
    log := (checks.filter (fun c => !c.2)).map (fun c => c.1 ++ " failed")
    written := written }

/-- Internal checks of `warp_TestInitWrite`: the initialized state is
structurally consistent. -/
def initWriteChecks (app : advection_setup) (t : ℚ) (init : PtFcnInit) :
    List (String × Bool) :=
  [("TestInitWrite: init state consistent",
    decide ((init app t).sol.length = (init app t).n))]

/-- Modelled from the spec and the warp_test.h doc comment: a vector is
initialized at time `t`, written (when the write callback is non-NULL),
and freed; returns `1` when the internal checks pass, `0` otherwise. -/
def warp_TestInitWrite (app : advection_setup) (t : ℚ) (init : PtFcnInit)
    (wr : Option PtFcnWrite) : TestResult :=
  runChecks (initWriteChecks app t init) (optWrite wr app t (init app t))

/-- Internal checks of `warp_TestClone`: the clone's solution data
matches the original's. -/
def cloneChecks (app : advection_setup) (t : ℚ) (init : PtFcnInit)
    (clone : PtFcnClone) : List (String × Bool) :=
  [("TestClone: clone matches original",
    decide ((clone app (init app t)).sol = (init app t).sol))]

/-- Modelled from the spec and the warp_test.h doc comment: a vector is
initialized at time `t`, cloned, both are written (when the write
callback is non-NULL) and freed; returns `1` when the internal checks
pass, `0` otherwise. -/
def warp_TestClone (app : advection_setup) (t : ℚ) (init : PtFcnInit)
    (wr : Option PtFcnWrite) (clone : PtFcnClone) : TestResult :=
  runChecks (cloneChecks app t init clone)
    (optWrite wr app t (init app t) ++
     optWrite wr app t (clone app (init app t)))

/-- Internal checks of `warp_TestSum`: the summed vector carries the
element-wise affine combination of the two originals. -/
def sumChecks (app : advection_setup) (t : ℚ) (init : PtFcnInit)
    (clone : PtFcnClone) (sum : PtFcnSum) : List (String × Bool) :=
  [("TestSum: y equals alpha x plus beta y",
    decide ((sum app 1 (init app t) 1 (clone app (init app t))).sol =
      List.zipWith (fun a b => a + b) (init app t).sol
        (clone app (init app t)).sol))]

/-- Modelled from the spec and the warp_test.h doc comment: a vector is
initialized at time `t`, cloned, the two are summed and the result
written (when the write callback is non-NULL); returns `1` when the
internal checks pass, `0` otherwise. -/
def warp_TestSum (app : advection_setup) (t : ℚ) (init : PtFcnInit)
    (wr : Option PtFcnWrite) (clone : PtFcnClone) (sum : PtFcnSum) :
    TestResult :=
  runChecks (sumChecks app t init clone sum)
    (optWrite wr app t (sum app 1 (init app t) 1 (clone app (init app t))))

/-- Internal checks of `warp_TestDot`: `<3u,u>/<u,u>` must equal `3`
within relative tolerance `1e-10` (stated denominator-cleared). -/
def dotChecks (app : advection_setup) (t : ℚ) (init : PtFcnInit)
    (clone : PtFcnClone) (sum : PtFcnSum) (dot : PtFcnDot) :
    List (String × Bool) :=
  [("TestDot: dot of 3u with u over dot of u with u equals 3",
    decide (|dot app (sum app 3 (init app t) 0 (clone app (init app t)))
        (init app t) - 3 * dot app (init app t) (init app t)| ≤
      3 * testTol * |dot app (init app t) (init app t)|))]

/-- Modelled from the spec and the warp_test.h doc comment: a vector is
initialized at time `t` and cloned, and dot products with known output
such as `<3v,v>/<v,v> = 3` are checked; returns `1` when all checks
pass, `0` otherwise, with log messages naming the failed checks. -/
def warp_TestDot (app : advection_setup) (t : ℚ) (init : PtFcnInit)
    (clone : PtFcnClone) (sum : PtFcnSum) (dot : PtFcnDot) : TestResult :=
  runChecks (dotChecks app t init clone sum dot) []

/-- Internal checks of `warp_TestBuf`: the unpacked result of packing
equals the original (weighted self-dot of the difference at most the
tolerance), and the declared buffer size bounds the bytes packed. -/
def bufChecks (app : advection_setup) (t : ℚ) (init : PtFcnInit)
    (sum : PtFcnSum) (dot : PtFcnDot) (bufsize : PtFcnBufSize)
    (bufpack : PtFcnBufPack) (bufunpack : PtFcnBufUnpack) :
    List (String × Bool) :=
  [("TestBuf: unpack of pack equals original",
    decide (|dot app
        (sum app 1 (init app t) (-1) (bufunpack app (bufpack app (init app t))))
        (sum app 1 (init app t) (-1) (bufunpack app (bufpack app (init app t))))| ≤
      testTol)),
   ("TestBuf: BufSize bounds bytes packed",
    decide (8 * (bufpack app (init app t)).length ≤ bufsize app))]

/-- Modelled from the spec and the warp_test.h doc comment: a vector is
initialized at time `t`, packed into a buffer, unpacked again, and the
unpacked result compared with the original; returns `1` when all
checks pass, `0` otherwise, with log messages naming the failed
checks. -/
def warp_TestBuf (app : advection_setup) (t : ℚ) (init : PtFcnInit)
    (sum : PtFcnSum) (dot : PtFcnDot) (bufsize : PtFcnBufSize)
    (bufpack : PtFcnBufPack) (bufunpack : PtFcnBufUnpack) : TestResult :=
  runChecks (bufChecks app t init sum dot bufsize bufpack bufunpack) []

/-- Internal checks of `warp_TestCoarsenRefine`: refine after coarsen
stays within the resolution-dependent consistency bound. -/
def coarsenRefineChecks (app : advection_setup) (t fdt cdt : ℚ)
    (init : PtFcnInit) (clone : PtFcnClone) (sum : PtFcnSum)
    (dot : PtFcnDot) (crsn rfn : PtFcnCoarsen) : List (String × Bool) :=
  [("TestCoarsenRefine: refine of coarsen close to original",
    decide (|dot app
        (sum app 1 (init app t) (-1)
          (rfn app t (t - fdt) (t + fdt) (t - cdt) (t + cdt)
            (crsn app t (t - fdt) (t + fdt) (t - cdt) (t + cdt) (init app t))))
        (sum app 1 (init app t) (-1)
          (rfn app t (t - fdt) (t + fdt) (t - cdt) (t + cdt)
            (crsn app t (t - fdt) (t + fdt) (t - cdt) (t + cdt) (init app t))))| ≤
      crBound app))]

/-- Modelled from the spec and the warp_test.h doc comment: a vector is
initialized at time `t` and sanity checks on the spatial coarsening and
refinement callbacks are run, writing intermediate states when the
write callback is non-NULL; returns `1` when all checks pass, `0`
otherwise, with log messages naming the failed checks. -/
def warp_TestCoarsenRefine (app : advection_setup) (t fdt cdt : ℚ)
    (init : PtFcnInit) (wr : Option PtFcnWrite) (clone : PtFcnClone)
    (sum : PtFcnSum) (dot : PtFcnDot) (crsn rfn : PtFcnCoarsen) :
    TestResult :=
  runChecks (coarsenRefineChecks app t fdt cdt init clone sum dot crsn rfn)
    (optWrite wr app t
      (crsn app t (t - fdt) (t + fdt) (t - cdt) (t + cdt) (init app t)))

/-- Modelled from the spec and the warp_test.h doc comment:
`warp_TestAll` runs all the individual test routines (with no write
callback of its own) and returns the logical AND of their results; the
coarsen/refine test is skipped, rather than failed, when the coarsen or
refine callback is NULL. -/
def warp_TestAll (app : advection_setup) (t fdt cdt : ℚ)
    (init : PtFcnInit) (clone : PtFcnClone) (sum : PtFcnSum)
    (dot : PtFcnDot) (bufsize : PtFcnBufSize) (bufpack : PtFcnBufPack)
    (bufunpack : PtFcnBufUnpack) (crsn rfn : Option PtFcnCoarsen) :
    TestResult :=
  let r1 := warp_TestInitWrite app t init none
  let r2 := warp_TestClone app t init none clone
  let r3 := warp_TestSum app t init none clone sum
  let r4 := warp_TestDot app t init clone sum dot
  let r5 := warp_TestBuf app t init sum dot bufsize bufpack bufunpack
  match crsn, rfn with
  | some c, some r =>
    let r6 := warp_TestCoarsenRefine app t fdt cdt init none clone sum dot c r
    { ret := if r1.ret = 1 ∧ r2.ret = 1 ∧ r3.ret = 1 ∧ r4.ret = 1 ∧
               r5.ret = 1 ∧ r6.ret = 1 then 1 else 0
      log := r1.log ++ r2.log ++ r3.log ++ r4.log ++ r5.log ++ r6.log
      written := [] }
  | _, _ =>
    { ret := if r1.ret = 1 ∧ r2.ret = 1 ∧ r3.ret = 1 ∧ r4.ret = 1 ∧
               r5.ret = 1 then 1 else 0
      log := r1.log ++ r2.log ++ r3.log ++ r4.log ++ r5.log ++
        ["TestAll: skipping TestCoarsenRefine"]
      written := [] }

/-- A concrete sample context used to evaluate theorems on explicit
inputs (consistent finest grid: `h_fine = L/(n_fine - 1)`). -/
def kd0 : advection_setup :=
  { n_fine := 3, h_fine := 1/2, dt_fine := 1/10, amp := 1, ph := 0, om := 1
    pnr := 1, taylorbc := 0, L := 1, c_coeff := 1, nu_coeff := 0
    restr_coeff := 0, ad_coeff := 0
    bcLeft := bcType.Periodic, bcRight := bcType.Periodic
    warpMaxIter := 10, warpResidualLevel := 1/1000000
    bop_ := buildOperatorTables 6
    testfcn := fun x t => 1 + x + t
    tstart := 0, tstop := 1, nsteps := 10 }

/-- Checks-pass predicate for a named check list: every check's boolean
is true. -/
def checksPass (cs : List (String × Bool)) : Prop :=
  ∀ c ∈ cs, c.2 = true

instance (cs : List (String × Bool)) : Decidable (checksPass cs) := by
  unfold checksPass; infer_instance

theorem getD_zipWith_of_lt (f : ℚ → ℚ → ℚ) :
    ∀ (l m : List ℚ) (i : ℕ), i < l.length → i < m.length →
      (List.zipWith f l m).getD i 0 = f (l.getD i 0) (m.getD i 0) := by
  intro l
  induction l with
  | nil => intro m i hi _; simp at hi
  | cons a l ih =>
    intro m i hi hm
    cases m with
    | nil => simp at hm
    | cons b m =>
      cases i with
      | zero => simp [List.getD]
      | succ j =>
        simp only [List.zipWith_cons_cons, List.getD_cons_succ]
        exact ih m j (by simpa using hi) (by simpa using hm)

theorem store_get_append_lt (s : Store) (x : grid_fcn) (i : ℕ)
    (hi : i < List.length s) :
    store_get (List.append s [x]) i = store_get s i := by
  unfold store_get
  exact List.getD_append s [x] default i hi

theorem store_sum_get_ne (kd : advection_setup) (alpha beta : ℚ)
    (hx hy i : ℕ) (s : Store) (hne : i ≠ hy) :
    store_get (store_sum kd alpha hx beta hy s) i = store_get s i := by
  unfold store_get store_sum
  rw [List.getD_eq_getElem?_getD, List.getD_eq_getElem?_getD,
    List.getElem?_set_ne (Ne.symm hne)]

theorem store_sums_get_ne (kd : advection_setup) (ms : List (ℚ × ℕ × ℚ))
    (hy i : ℕ) (hne : i ≠ hy) :
    ∀ s : Store, store_get (store_sums kd ms hy s) i = store_get s i := by
  induction ms with
  | nil => intro s; rfl
  | cons m ms ih =>
    intro s
    have hstep := store_sum_get_ne kd m.1 m.2.2 m.2.1 hy i s hne
    calc store_get (store_sums kd (m :: ms) hy s) i
        = store_get (store_sums kd ms hy (store_sum kd m.1 m.2.1 m.2.2 hy s)) i := rfl
      _ = store_get (store_sum kd m.1 m.2.1 m.2.2 hy s) i := ih _
      _ = store_get s i := hstep

/-- C4: `sum_grid_fcn(app, alpha, x, beta, y)` updates `y` in place so
that every entry becomes `alpha*x.sol[i] + beta*y.sol[i]` (given the
equal-length precondition), preserves `y`'s length and metadata, and
leaves the vector held at any other handle — in particular `x` —
unchanged. -/
theorem sum_grid_fcn_spec (kd : advection_setup) (alpha beta : ℚ)
    (x y : grid_fcn) (hlen : x.sol.length = y.sol.length) :
    (sum_grid_fcn kd alpha x beta y).sol.length = y.sol.length ∧
    (∀ i, i < y.sol.length →
      (sum_grid_fcn kd alpha x beta y).sol.getD i 0 =
        alpha * x.sol.getD i 0 + beta * y.sol.getD i 0) ∧
    (sum_grid_fcn kd alpha x beta y).n = y.n ∧
    (sum_grid_fcn kd alpha x beta y).h = y.h ∧
    (∀ (s : Store) (hx hy : ℕ), hx ≠ hy →
      store_get (store_sum kd alpha hx beta hy s) hx = store_get s hx) := by
  refine ⟨?_, ?_, rfl, rfl, ?_⟩
  · simp [sum_grid_fcn, hlen]
  · intro i hi
    exact getD_zipWith_of_lt _ x.sol y.sol i (hlen ▸ hi) hi
  · intro s hx hy hne
    exact store_sum_get_ne kd alpha beta hx hy hx s hne

/-- C4 witness: the contract evaluated on explicit vectors. -/
theorem sum_grid_fcn_spec_witness :
    (⟨[1, 2], 2, 1, []⟩ : grid_fcn).sol.length =
      (⟨[5, 7], 2, 1, []⟩ : grid_fcn).sol.length ∧
    (sum_grid_fcn kd0 2 ⟨[1, 2], 2, 1, []⟩ 3 ⟨[5, 7], 2, 1, []⟩).sol.getD 0 0 =
      2 * (⟨[1, 2], 2, 1, []⟩ : grid_fcn).sol.getD 0 0 +
        3 * (⟨[5, 7], 2, 1, []⟩ : grid_fcn).sol.getD 0 0 := by
  refine ⟨rfl, ?_⟩
  exact (sum_grid_fcn_spec kd0 2 3 ⟨[1, 2], 2, 1, []⟩ ⟨[5, 7], 2, 1, []⟩
    rfl).2.1 0 (by norm_num)

/-- C7: `gridfcn_Coarsen` produces the same coarse vector under any two
assignments of the time-bound arguments; the resolution reduction is
purely spatial. -/
theorem coarsen_time_independent (kd : advection_setup)
    (ts1 a1 b1 c1 d1 ts2 a2 b2 c2 d2 : ℚ) (fu : grid_fcn) :
    gridfcn_Coarsen kd ts1 a1 b1 c1 d1 fu =
      gridfcn_Coarsen kd ts2 a2 b2 c2 d2 fu := rfl

/-- C2: cloning through the store produces an independent vector: after
any sequence of `Sum` mutations targeting the clone's handle, the
original's entry is unchanged and its `Dot` value against any third
reference vector is the same as before. -/
theorem clone_independence (kd : advection_setup) (s : Store) (hu : ℕ)
    (w : grid_fcn) (ms : List (ℚ × ℕ × ℚ)) (hlt : hu < List.length s) :
    store_get (store_sums kd ms (store_clone kd s hu).2 (store_clone kd s hu).1) hu
      = store_get s hu ∧
    dot_grid_fcn kd
        (store_get (store_sums kd ms (store_clone kd s hu).2 (store_clone kd s hu).1) hu) w
      = dot_grid_fcn kd (store_get s hu) w := by
  have hne : hu ≠ (store_clone kd s hu).2 := by
    unfold store_clone
    exact Nat.ne_of_lt hlt
  have hmain :
      store_get (store_sums kd ms (store_clone kd s hu).2 (store_clone kd s hu).1) hu
        = store_get s hu := by
    rw [store_sums_get_ne kd ms (store_clone kd s hu).2 hu hne]
    exact store_get_append_lt s _ hu hlt
  exact ⟨hmain, by rw [hmain]⟩

/-- C2 witness: clone independence evaluated on an explicit store. -/
theorem clone_independence_witness :
    (0 : ℕ) < List.length ([⟨[1, 2], 2, 1, []⟩] : Store) ∧
    store_get
        (store_sums kd0 [(2, 1, 3)]
          (store_clone kd0 [⟨[1, 2], 2, 1, []⟩] 0).2
          (store_clone kd0 [⟨[1, 2], 2, 1, []⟩] 0).1) 0
      = store_get [⟨[1, 2], 2, 1, []⟩] 0 :=
  ⟨Nat.zero_lt_one,
    (clone_independence kd0 [⟨[1, 2], 2, 1, []⟩] 0 ⟨[1], 1, 1, []⟩
      [(2, 1, 3)] Nat.zero_lt_one).1⟩

theorem zipWith_affine_self (c d : ℚ) (l : List ℚ) :
    List.zipWith (fun a b => c * a + d * b) l l =
      l.map (fun a => (c + d) * a) := by
  induction l with
  | nil => rfl
  | cons a l ih =>
    simp only [List.zipWith_cons_cons, List.map_cons, ih]
    congr 1
    ring

theorem zipWith_mul_map_left (c : ℚ) :
    ∀ l m : List ℚ,
      List.zipWith (fun a b => a * b) (l.map fun a => c * a) m =
        (List.zipWith (fun a b => a * b) l m).map (fun a => c * a) := by
  intro l
  induction l with
  | nil => intro m; rfl
  | cons a l ih =>
    intro m
    cases m with
    | nil => rfl
    | cons b m =>
      simp only [List.map_cons, List.zipWith_cons_cons, ih]
      congr 1
      ring

theorem wsum_map_mul (w : ℕ → ℚ) (c : ℚ) :
    ∀ (l : List ℚ) (i : ℕ), wsum w i (l.map fun a => c * a) = c * wsum w i l := by
  intro l
  induction l with
  | nil => intro i; simp [wsum]
  | cons a l ih =>
    intro i
    simp only [List.map_cons, wsum, ih]
    ring

/-- Dot of an affine self-combination: for any `y` carrying the same
solution data as `v`, `Dot(Sum(c, v, d, y), v) = (c+d)·Dot(v, v)`. -/
theorem dot_sum_affine (kd : advection_setup) (c d : ℚ) (v y : grid_fcn)
    (hy : y.sol = v.sol) (hh : y.h = v.h) :
    dot_grid_fcn kd (sum_grid_fcn kd c v d y) v =
      (c + d) * dot_grid_fcn kd v v := by
  unfold dot_grid_fcn sum_grid_fcn
  simp only [hy, hh, zipWith_affine_self, List.length_map, zipWith_mul_map_left,
    wsum_map_mul]
  ring

theorem wsum_zeroes (w : ℕ → ℚ) :
    ∀ (l : List ℚ) (i : ℕ), wsum w i (l.map fun _ => (0 : ℚ)) = 0 := by
  intro l
  induction l with
  | nil => intro i; simp [wsum]
  | cons a l ih =>
    intro i
    simp only [List.map_cons, wsum, ih]
    ring

theorem zipWith_mul_zeroes (l : List ℚ) :
    List.zipWith (fun a b => a * b) (l.map fun _ => (0 : ℚ))
      (l.map fun _ => (0 : ℚ)) = l.map (fun _ => 0) := by
  induction l with
  | nil => rfl
  | cons a l ih =>
    simp only [List.map_cons, List.zipWith_cons_cons, ih, zero_mul]

/-- Unpacking the packed buffer reconstructs the original state (with a
fresh, empty auxiliary container). -/
theorem bufUnpack_bufPack_eq (kd : advection_setup) (u : grid_fcn) :
    gridfcn_BufUnpack kd (gridfcn_BufPack kd u) =
      { sol := u.sol, n := u.n, h := u.h, vsol_ := [] } := by
  unfold gridfcn_BufPack gridfcn_BufUnpack
  simp

/-- The difference vector `Sum(1, u, -1, v)` for `v` carrying `u`'s
solution data has all-zero solution data. -/
theorem sum_diff_self_sol (kd : advection_setup) (u v : grid_fcn)
    (hv : v.sol = u.sol) :
    (sum_grid_fcn kd 1 u (-1) v).sol = u.sol.map (fun _ => 0) := by
  unfold sum_grid_fcn
  simp only [hv, zipWith_affine_self]
  have : (1 : ℚ) + -1 = 0 := by norm_num
  rw [this]
  simp

/-- The weighted self-dot of a vector with all-zero solution data is
exactly zero. -/
theorem dot_self_zero_of_sol_zero (kd : advection_setup) (d : grid_fcn)
    (l : List ℚ) (hd : d.sol = l.map (fun _ => 0)) :
    dot_grid_fcn kd d d = 0 := by
  unfold dot_grid_fcn
  rw [hd, zipWith_mul_zeroes, wsum_zeroes, mul_zero]

/-- C1: serialization round-trip — unpacking the packed buffer yields a
state equal to the original (same `sol`, `n`, `h`), the weighted
self-dot of `Sum(1, u, -1, BufUnpack(BufPack(u)))` is exactly zero, and
`gridfcn_BufSize` bounds the bytes `gridfcn_BufPack` writes for any
state no finer than the finest grid. -/
theorem buf_roundtrip (kd : advection_setup) (u : grid_fcn)
    (hlen : u.sol.length ≤ kd.n_fine) :
    gridfcn_BufUnpack kd (gridfcn_BufPack kd u) =
      { sol := u.sol, n := u.n, h := u.h, vsol_ := [] } ∧
    dot_grid_fcn kd
        (sum_grid_fcn kd 1 u (-1) (gridfcn_BufUnpack kd (gridfcn_BufPack kd u)))
        (sum_grid_fcn kd 1 u (-1) (gridfcn_BufUnpack kd (gridfcn_BufPack kd u)))
      = 0 ∧
    bufPackBytes kd u ≤ gridfcn_BufSize kd := by
  refine ⟨bufUnpack_bufPack_eq kd u, ?_, ?_⟩
  · refine dot_self_zero_of_sol_zero kd _ u.sol ?_
    refine sum_diff_self_sol kd u _ ?_
    rw [bufUnpack_bufPack_eq kd u]
  · unfold bufPackBytes gridfcn_BufSize gridfcn_BufPack
    simp only [List.length_cons]
    omega

/-- C1 witness: the round-trip contract evaluated on an explicit state
vector in the sample context. -/
theorem buf_roundtrip_witness :
    (⟨[1, 2], 2, 1, []⟩ : grid_fcn).sol.length ≤ kd0.n_fine ∧
    dot_grid_fcn kd0
        (sum_grid_fcn kd0 1 ⟨[1, 2], 2, 1, []⟩ (-1)
          (gridfcn_BufUnpack kd0 (gridfcn_BufPack kd0 ⟨[1, 2], 2, 1, []⟩)))
        (sum_grid_fcn kd0 1 ⟨[1, 2], 2, 1, []⟩ (-1)
          (gridfcn_BufUnpack kd0 (gridfcn_BufPack kd0 ⟨[1, 2], 2, 1, []⟩)))
      = 0 ∧
    bufPackBytes kd0 ⟨[1, 2], 2, 1, []⟩ ≤ gridfcn_BufSize kd0 := by
  have hlen : (⟨[1, 2], 2, 1, []⟩ : grid_fcn).sol.length ≤ kd0.n_fine := by
    decide
  have h := buf_roundtrip kd0 ⟨[1, 2], 2, 1, []⟩ hlen
  exact ⟨hlen, h.2.1, h.2.2⟩

/-- C3: for a vector `v` initialized at a fixed time `t` with nonzero
self-dot, `Dot(Sum(3, v, 0, Clone(v)), v) / Dot(v, v)` computed through
`copy_grid_fcn`, `sum_grid_fcn` and `dot_grid_fcn` equals `3` exactly,
hence within relative tolerance `1e-10`; and the corresponding check of
`warp_TestDot` instantiated with these operations passes. -/
theorem dot_scaling_eq_three (kd : advection_setup) (t : ℚ)
    (hnz : dot_grid_fcn kd (init_grid_fcn kd t) (init_grid_fcn kd t) ≠ 0) :
    dot_grid_fcn kd
        (sum_grid_fcn kd 3 (init_grid_fcn kd t) 0
          (copy_grid_fcn kd (init_grid_fcn kd t)))
        (init_grid_fcn kd t) /
      dot_grid_fcn kd (init_grid_fcn kd t) (init_grid_fcn kd t) = 3 ∧
    |dot_grid_fcn kd
        (sum_grid_fcn kd 3 (init_grid_fcn kd t) 0
          (copy_grid_fcn kd (init_grid_fcn kd t)))
        (init_grid_fcn kd t) /
      dot_grid_fcn kd (init_grid_fcn kd t) (init_grid_fcn kd t) - 3| ≤
      3 * testTol ∧
    ("TestDot: dot of 3u with u over dot of u with u equals 3", true) ∈
      dotChecks kd t init_grid_fcn copy_grid_fcn sum_grid_fcn dot_grid_fcn := by
  have haff :
      dot_grid_fcn kd
          (sum_grid_fcn kd 3 (init_grid_fcn kd t) 0
            (copy_grid_fcn kd (init_grid_fcn kd t)))
          (init_grid_fcn kd t) =
        3 * dot_grid_fcn kd (init_grid_fcn kd t) (init_grid_fcn kd t) := by
    have := dot_sum_affine kd 3 0 (init_grid_fcn kd t)
      (copy_grid_fcn kd (init_grid_fcn kd t)) rfl rfl
    simpa using this
  have hscale :
      dot_grid_fcn kd
          (sum_grid_fcn kd 3 (init_grid_fcn kd t) 0
            (copy_grid_fcn kd (init_grid_fcn kd t)))
          (init_grid_fcn kd t) /
        dot_grid_fcn kd (init_grid_fcn kd t) (init_grid_fcn kd t) = 3 := by
    rw [haff]
    exact mul_div_cancel_right₀ 3 hnz
  refine ⟨hscale, ?_, ?_⟩
  · rw [hscale]
    have htol : (0 : ℚ) ≤ 3 * testTol := by norm_num [testTol]
    simpa using htol
  · have hcheck :
        |dot_grid_fcn kd
            (sum_grid_fcn kd 3 (init_grid_fcn kd t) 0
              (copy_grid_fcn kd (init_grid_fcn kd t)))
            (init_grid_fcn kd t) -
          3 * dot_grid_fcn kd (init_grid_fcn kd t) (init_grid_fcn kd t)| ≤
          3 * testTol *
            |dot_grid_fcn kd (init_grid_fcn kd t) (init_grid_fcn kd t)| := by
      rw [haff]
      simp only [sub_self, abs_zero, testTol]
      positivity
    simp [dotChecks, hcheck]

/-- C3 witness: the dot-scaling identity evaluated in the sample
context at time `0`. -/
theorem dot_scaling_eq_three_witness :
    dot_grid_fcn kd0 (init_grid_fcn kd0 0) (init_grid_fcn kd0 0) ≠ 0 ∧
    dot_grid_fcn kd0
        (sum_grid_fcn kd0 3 (init_grid_fcn kd0 0) 0
          (copy_grid_fcn kd0 (init_grid_fcn kd0 0)))
        (init_grid_fcn kd0 0) /
      dot_grid_fcn kd0 (init_grid_fcn kd0 0) (init_grid_fcn kd0 0) = 3 := by
  have hnz : dot_grid_fcn kd0 (init_grid_fcn kd0 0) (init_grid_fcn kd0 0) ≠ 0 := by
    norm_num [dot_grid_fcn, init_grid_fcn, kd0, wsum, sbpWeight,
      List.range_succ]
  exact ⟨hnz, (dot_scaling_eq_three kd0 0 hnz).1⟩

/-- C6: the grid-spacing invariant `h = L/(n-1)` holds for every vector
produced by the vector-producing operations: `init_grid_fcn` (given a
consistent finest grid in the context), `copy_grid_fcn`,
`gridfcn_BufUnpack` of a packed consistent vector, `gridfcn_Coarsen` of
a consistent odd-length fine vector, and `gridfcn_Refine` of a
consistent nonempty coarse vector. -/
theorem grid_consistency (kd : advection_setup) (t : ℚ) (u fu cu : grid_fcn)
    (ts1 a1 b1 c1 d1 : ℚ)
    (hfine : kd.h_fine = kd.L / ((kd.n_fine : ℚ) - 1))
    (hu : gridConsistent kd u)
    (hfu : gridConsistent kd fu) (k : ℕ) (hodd : fu.n = 2 * k + 1)
    (hcu : gridConsistent kd cu) (hcn : 1 ≤ cu.n) :
    gridConsistent kd (init_grid_fcn kd t) ∧
    gridConsistent kd (copy_grid_fcn kd u) ∧
    gridConsistent kd (gridfcn_BufUnpack kd (gridfcn_BufPack kd u)) ∧
    gridConsistent kd (gridfcn_Coarsen kd ts1 a1 b1 c1 d1 fu) ∧
    gridConsistent kd (gridfcn_Refine kd ts1 a1 b1 c1 d1 cu) := by
  refine ⟨?_, ?_, ?_, ?_, ?_⟩
  · simpa [gridConsistent, init_grid_fcn] using hfine
  · simpa [gridConsistent, copy_grid_fcn] using hu
  · rw [bufUnpack_bufPack_eq kd u]
    simpa [gridConsistent] using hu
  · unfold gridConsistent gridfcn_Coarsen at *
    simp only [hodd] at hfu ⊢
    have hdiv : (2 * k + 1 + 1) / 2 = k + 1 := by omega
    rw [hdiv]
    have hcast1 : ((2 * k + 1 : ℕ) : ℚ) - 1 = 2 * (k : ℚ) := by
      push_cast; ring
    have hcast2 : ((k + 1 : ℕ) : ℚ) - 1 = (k : ℚ) := by
      push_cast; ring
    rw [hcast1] at hfu
    rw [hcast2, hfu, ← mul_div_assoc]
    exact mul_div_mul_left kd.L (k : ℚ) two_ne_zero
  · unfold gridConsistent gridfcn_Refine at *
    obtain ⟨m, hm⟩ : ∃ m, cu.n = m + 1 := ⟨cu.n - 1, by omega⟩
    simp only [hm] at hcu ⊢
    have hdiv : 2 * (m + 1) - 1 = 2 * m + 1 := by omega
    rw [hdiv]
    have hcast1 : ((m + 1 : ℕ) : ℚ) - 1 = (m : ℚ) := by push_cast; ring
    have hcast2 : ((2 * m + 1 : ℕ) : ℚ) - 1 = 2 * (m : ℚ) := by
      push_cast; ring
    rw [hcast1] at hcu
    rw [hcast2, hcu, div_div]
    congr 1
    ring

/-- C6 witness: the invariant evaluated on explicit consistent vectors
in the sample context. -/
theorem grid_consistency_witness :
    (kd0.h_fine = kd0.L / ((kd0.n_fine : ℚ) - 1)) ∧
    gridConsistent kd0 (⟨[1, 3/2, 2], 3, 1/2, []⟩ : grid_fcn) ∧
    gridConsistent kd0 (init_grid_fcn kd0 0) ∧
    gridConsistent kd0 (gridfcn_Coarsen kd0 0 0 0 0 0 ⟨[1, 3/2, 2], 3, 1/2, []⟩) := by
  have hfine : kd0.h_fine = kd0.L / ((kd0.n_fine : ℚ) - 1) := by
    norm_num [kd0]
  have hc : gridConsistent kd0 (⟨[1, 3/2, 2], 3, 1/2, []⟩ : grid_fcn) := by
    norm_num [gridConsistent, kd0]
  have h := grid_consistency kd0 0 ⟨[1, 3/2, 2], 3, 1/2, []⟩
    ⟨[1, 3/2, 2], 3, 1/2, []⟩ ⟨[1, 3/2, 2], 3, 1/2, []⟩ 0 0 0 0 0
    hfine hc hc 1 rfl hc (by norm_num)
  exact ⟨hfine, hc, h.1, h.2.2.2.1⟩

/-- C8: whenever `explicit_rk4_stepper` returns success (status `0`),
the suggested refinement factor is an integer at least `1`, and it
equals `1` exactly when the local error indicator met the accuracy
request (the step was accepted as-is); when the RK4 update hits an
unrecoverable numerical condition (a non-finite state, `none`), the
stepper returns a nonzero status. -/
theorem rk4_stepper_signal (kd : advection_setup)
    (f : ℚ → List ℚ → Option (List ℚ)) (t tend accuracy : ℚ)
    (gf : grid_fcn) :
    ((explicit_rk4_stepper kd f t tend accuracy gf).1 = 0 →
      1 ≤ (explicit_rk4_stepper kd f t tend accuracy gf).2.2) ∧
    (rk4SolUpdate f t (tend - t) gf.sol = none →
      (explicit_rk4_stepper kd f t tend accuracy gf).1 ≠ 0) ∧
    (∀ wnew err, rk4SolUpdate f t (tend - t) gf.sol = some (wnew, err) →
      ((explicit_rk4_stepper kd f t tend accuracy gf).2.2 = 1 ↔
        err ≤ accuracy)) := by
  cases hupd : rk4SolUpdate f t (tend - t) gf.sol with
  | none =>
    unfold explicit_rk4_stepper
    rw [hupd]
    refine ⟨?_, ?_, ?_⟩
    · intro hzero
      simp at hzero
    · intro _
      simp
    · intro wnew err hsome
      simp at hsome
  | some p =>
    obtain ⟨wnew0, err0⟩ := p
    unfold explicit_rk4_stepper
    rw [hupd]
    refine ⟨?_, ?_, ?_⟩
    · intro _
      simp only
      unfold rfactOf
      split
      · exact le_refl 1
      · exact le_trans one_le_two (le_max_left _ _)
    · intro hnone
      simp at hnone
    · intro wnew err hsome
      simp only [Option.some.injEq, Prod.mk.injEq] at hsome
      obtain ⟨-, rfl⟩ := hsome
      simp only
      unfold rfactOf
      split
      · simp_all
      · have h2 : (2 : ℤ) ≤ max 2 ⌈err0 / accuracy⌉ := le_max_left _ _
        constructor
        · intro h1; omega
        · intro hle; simp_all
  
/-- C8 witness: the stepper evaluated on an explicit state with a total
right-hand side returns success with refinement factor at least `1`. -/
theorem rk4_stepper_signal_witness :
    (explicit_rk4_stepper kd0 (fun _ w => Option.some w) 0 1 1
      ⟨[1], 1, 1, []⟩).1 = 0 ∧
    1 ≤ (explicit_rk4_stepper kd0 (fun _ w => Option.some w) 0 1 1
      ⟨[1], 1, 1, []⟩).2.2 := by
  have hz : (explicit_rk4_stepper kd0 (fun _ w => Option.some w) 0 1 1
      ⟨[1], 1, 1, []⟩).1 = 0 := rfl
  exact ⟨hz,
    (rk4_stepper_signal kd0 (fun _ w => Option.some w) 0 1 1
      ⟨[1], 1, 1, []⟩).1 hz⟩

/-- C9: `init_advection_solver` signals a configuration error exactly
when the CFL/step-count parameters are inconsistent (neither or both
step-count sources usable); on success it populates the context from
the parameters, honoring exactly the selected step-count source, and
builds the operator tables exactly once. -/
theorem init_solver_failfast (h amp ph om : ℚ) (pnr taylorbc : ℤ)
    (L cfl : ℚ) (nstepsset : Bool) (nsteps : ℤ)
    (tfinal wave_speed viscosity : ℚ) (bcLeft bcRight : bcType)
    (warpMaxIter : ℤ) (warpResidualLevel restr_coeff ad_coeff : ℚ)
    (testfcn : ℚ → ℚ → ℚ) :
    (isConfigError (init_advection_solver h amp ph om pnr taylorbc L cfl
        nstepsset nsteps tfinal wave_speed viscosity bcLeft bcRight
        warpMaxIter warpResidualLevel restr_coeff ad_coeff testfcn) = true ↔
      stepConfigOK cfl nstepsset nsteps = false) ∧
    (∀ kd, init_advection_solver h amp ph om pnr taylorbc L cfl nstepsset
        nsteps tfinal wave_speed viscosity bcLeft bcRight warpMaxIter
        warpResidualLevel restr_coeff ad_coeff testfcn = Except.ok kd →
      kd.bop_ = buildOperatorTables 6 ∧
      (nstepsset = true → kd.dt_fine = tfinal / (nsteps : ℚ)) ∧
      (nstepsset = false → kd.dt_fine = cfl * h / wave_speed) ∧
      kd.h_fine = h ∧ kd.L = L ∧ kd.amp = amp ∧
      kd.c_coeff = wave_speed ∧ kd.nu_coeff = viscosity) := by
  cases hok : stepConfigOK cfl nstepsset nsteps with
  | false =>
    unfold init_advection_solver
    rw [hok]
    simp only [Bool.false_eq_true, if_false]
    refine ⟨by simp [isConfigError], ?_⟩
    intro kd hkd
    simp at hkd
  | true =>
    unfold init_advection_solver
    rw [hok]
    simp only [if_true]
    refine ⟨by simp [isConfigError, hok], ?_⟩
    intro kd hkd
    injection hkd with hkd'
    subst hkd'
    refine ⟨rfl, ?_, ?_, rfl, rfl, rfl, rfl, rfl⟩
    · intro hset
      simp [hset]
    · intro hset
      simp [hset]

/-- C9 witness: an inconsistent configuration (both a positive CFL
number and an explicit step count supplied) is rejected fail-fast. -/
theorem init_solver_failfast_witness :
    stepConfigOK 1 true 5 = false ∧
    isConfigError (init_advection_solver (1/2) 1 0 1 1 0 1 1 true 5 1 1 0
      bcType.Periodic bcType.Periodic 10 (1/1000000) 0 0
      (fun x t => x + t)) = true := by
  have hcfg : stepConfigOK 1 true 5 = false := by
    simp [stepConfigOK]
  exact ⟨hcfg,
    (init_solver_failfast (1/2) 1 0 1 1 0 1 1 true 5 1 1 0
      bcType.Periodic bcType.Periodic 10 (1/1000000) 0 0
      (fun x t => x + t)).1.mpr hcfg⟩

theorem runChecks_ret_one (cs : List (String × Bool)) (ws : List String) :
    (runChecks cs ws).ret = 1 ↔ checksPass cs := by
  show (if cs.all (fun c => c.2) = true then (1 : ℤ) else 0) = 1 ↔ checksPass cs
  by_cases hp : checksPass cs
  · rw [if_pos (List.all_eq_true.mpr hp)]
    simpa using hp
  · rw [if_neg (fun hall => hp (List.all_eq_true.mp hall))]
    constructor
    · intro h0
      norm_num at h0
    · intro hq
      exact absurd hq hp

theorem runChecks_ret_cases (cs : List (String × Bool)) (ws : List String) :
    (runChecks cs ws).ret = 0 ∨ (runChecks cs ws).ret = 1 := by
  show (if cs.all (fun c => c.2) = true then (1 : ℤ) else 0) = 0 ∨
    (if cs.all (fun c => c.2) = true then (1 : ℤ) else 0) = 1
  split
  · exact Or.inr rfl
  · exact Or.inl rfl

theorem runChecks_log (cs : List (String × Bool)) (ws : List String)
    (nm : String) (hmem : (nm, false) ∈ cs) :
    nm ++ " failed" ∈ (runChecks cs ws).log := by
  show nm ++ " failed" ∈ (cs.filter (fun c => !c.2)).map (fun c => c.1 ++ " failed")
  refine List.mem_map.mpr ⟨(nm, false), ?_, rfl⟩
  refine List.mem_filter.mpr ⟨hmem, rfl⟩

/-- C5: every conformance test entry point returns `1` exactly when all
of its internal checks pass within tolerance and `0` otherwise (never
any other value), logging a diagnostic naming each failed check;
`warp_TestAll` returns `1` exactly when every subtest returns `1` and
forwards the subtests' diagnostics to its log. -/
theorem test_return_convention (app : advection_setup) (t fdt cdt : ℚ)
    (init : PtFcnInit) (wr : Option PtFcnWrite) (clone : PtFcnClone)
    (sum : PtFcnSum) (dot : PtFcnDot) (bufsize : PtFcnBufSize)
    (bufpack : PtFcnBufPack) (bufunpack : PtFcnBufUnpack)
    (crsn rfn : PtFcnCoarsen) :
    ((warp_TestInitWrite app t init wr).ret = 1 ↔
      checksPass (initWriteChecks app t init)) ∧
    ((warp_TestInitWrite app t init wr).ret = 0 ∨
      (warp_TestInitWrite app t init wr).ret = 1) ∧
    (∀ nm, (nm, false) ∈ initWriteChecks app t init →
      nm ++ " failed" ∈ (warp_TestInitWrite app t init wr).log) ∧
    ((warp_TestClone app t init wr clone).ret = 1 ↔
      checksPass (cloneChecks app t init clone)) ∧
    ((warp_TestClone app t init wr clone).ret = 0 ∨
      (warp_TestClone app t init wr clone).ret = 1) ∧
    (∀ nm, (nm, false) ∈ cloneChecks app t init clone →
      nm ++ " failed" ∈ (warp_TestClone app t init wr clone).log) ∧
    ((warp_TestSum app t init wr clone sum).ret = 1 ↔
      checksPass (sumChecks app t init clone sum)) ∧
    ((warp_TestSum app t init wr clone sum).ret = 0 ∨
      (warp_TestSum app t init wr clone sum).ret = 1) ∧
    (∀ nm, (nm, false) ∈ sumChecks app t init clone sum →
      nm ++ " failed" ∈ (warp_TestSum app t init wr clone sum).log) ∧
    ((warp_TestDot app t init clone sum dot).ret = 1 ↔
      checksPass (dotChecks app t init clone sum dot)) ∧
    ((warp_TestDot app t init clone sum dot).ret = 0 ∨
      (warp_TestDot app t init clone sum dot).ret = 1) ∧
    (∀ nm, (nm, false) ∈ dotChecks app t init clone sum dot →
      nm ++ " failed" ∈ (warp_TestDot app t init clone sum dot).log) ∧
    ((warp_TestBuf app t init sum dot bufsize bufpack bufunpack).ret = 1 ↔
      checksPass (bufChecks app t init sum dot bufsize bufpack bufunpack)) ∧
    ((warp_TestBuf app t init sum dot bufsize bufpack bufunpack).ret = 0 ∨
      (warp_TestBuf app t init sum dot bufsize bufpack bufunpack).ret = 1) ∧
    (∀ nm, (nm, false) ∈ bufChecks app t init sum dot bufsize bufpack bufunpack →
      nm ++ " failed" ∈
        (warp_TestBuf app t init sum dot bufsize bufpack bufunpack).log) ∧
    ((warp_TestCoarsenRefine app t fdt cdt init wr clone sum dot crsn rfn).ret = 1 ↔
      checksPass (coarsenRefineChecks app t fdt cdt init clone sum dot crsn rfn)) ∧
    ((warp_TestCoarsenRefine app t fdt cdt init wr clone sum dot crsn rfn).ret = 0 ∨
      (warp_TestCoarsenRefine app t fdt cdt init wr clone sum dot crsn rfn).ret = 1) ∧
    (∀ nm, (nm, false) ∈ coarsenRefineChecks app t fdt cdt init clone sum dot crsn rfn →
      nm ++ " failed" ∈
        (warp_TestCoarsenRefine app t fdt cdt init wr clone sum dot crsn rfn).log) ∧
    ((warp_TestAll app t fdt cdt init clone sum dot bufsize bufpack bufunpack
        (some crsn) (some rfn)).ret = 1 ↔
      ((warp_TestInitWrite app t init none).ret = 1 ∧
       (warp_TestClone app t init none clone).ret = 1 ∧
       (warp_TestSum app t init none clone sum).ret = 1 ∧
       (warp_TestDot app t init clone sum dot).ret = 1 ∧
       (warp_TestBuf app t init sum dot bufsize bufpack bufunpack).ret = 1 ∧
       (warp_TestCoarsenRefine app t fdt cdt init none clone sum dot crsn rfn).ret = 1)) ∧
    ((warp_TestAll app t fdt cdt init clone sum dot bufsize bufpack bufunpack
        (some crsn) (some rfn)).ret = 0 ∨
     (warp_TestAll app t fdt cdt init clone sum dot bufsize bufpack bufunpack
        (some crsn) (some rfn)).ret = 1) ∧
    (∀ m, m ∈ (warp_TestDot app t init clone sum dot).log →
      m ∈ (warp_TestAll app t fdt cdt init clone sum dot bufsize bufpack
        bufunpack (some crsn) (some rfn)).log) := by
  have hall : warp_TestAll app t fdt cdt init clone sum dot bufsize bufpack
      bufunpack (some crsn) (some rfn) =
    { ret := if ((warp_TestInitWrite app t init none).ret = 1 ∧
                 (warp_TestClone app t init none clone).ret = 1 ∧
                 (warp_TestSum app t init none clone sum).ret = 1 ∧
                 (warp_TestDot app t init clone sum dot).ret = 1 ∧
                 (warp_TestBuf app t init sum dot bufsize bufpack bufunpack).ret = 1 ∧
                 (warp_TestCoarsenRefine app t fdt cdt init none clone sum dot
                   crsn rfn).ret = 1) then 1 else 0
      log := (warp_TestInitWrite app t init none).log ++
             (warp_TestClone app t init none clone).log ++
             (warp_TestSum app t init none clone sum).log ++
             (warp_TestDot app t init clone sum dot).log ++
             (warp_TestBuf app t init sum dot bufsize bufpack bufunpack).log ++
             (warp_TestCoarsenRefine app t fdt cdt init none clone sum dot
               crsn rfn).log
      written := [] } := rfl
  refine ⟨runChecks_ret_one _ _, runChecks_ret_cases _ _,
    fun nm hm => runChecks_log _ _ nm hm,
    runChecks_ret_one _ _, runChecks_ret_cases _ _,
    fun nm hm => runChecks_log _ _ nm hm,
    runChecks_ret_one _ _, runChecks_ret_cases _ _,
    fun nm hm => runChecks_log _ _ nm hm,
    runChecks_ret_one _ _, runChecks_ret_cases _ _,
    fun nm hm => runChecks_log _ _ nm hm,
    runChecks_ret_one _ _, runChecks_ret_cases _ _,
    fun nm hm => runChecks_log _ _ nm hm,
    runChecks_ret_one _ _, runChecks_ret_cases _ _,
    fun nm hm => runChecks_log _ _ nm hm, ?_, ?_, ?_⟩
  · rw [hall]
    by_cases hp : ((warp_TestInitWrite app t init none).ret = 1 ∧
      (warp_TestClone app t init none clone).ret = 1 ∧
      (warp_TestSum app t init none clone sum).ret = 1 ∧
      (warp_TestDot app t init clone sum dot).ret = 1 ∧
      (warp_TestBuf app t init sum dot bufsize bufpack bufunpack).ret = 1 ∧
      (warp_TestCoarsenRefine app t fdt cdt init none clone sum dot crsn rfn).ret = 1)
    · simp only [if_pos hp]
      simpa using hp
    · simp only [if_neg hp]
      constructor
      · intro h0; norm_num at h0
      · intro hq; exact absurd hq hp
  · rw [hall]
    by_cases hp : ((warp_TestInitWrite app t init none).ret = 1 ∧
      (warp_TestClone app t init none clone).ret = 1 ∧
      (warp_TestSum app t init none clone sum).ret = 1 ∧
      (warp_TestDot app t init clone sum dot).ret = 1 ∧
      (warp_TestBuf app t init sum dot bufsize bufpack bufunpack).ret = 1 ∧
      (warp_TestCoarsenRefine app t fdt cdt init none clone sum dot crsn rfn).ret = 1)
    · simp only [if_pos hp]
      exact Or.inr (by norm_num)
    · simp only [if_neg hp]
      exact Or.inl (by norm_num)
  · intro m hm
    rw [hall]
    simp only [List.mem_append]
    tauto

/-- C5 witness: `warp_TestInitWrite` instantiated with the reference
discretization operations passes its checks and returns `1`. -/
theorem test_return_convention_witness :
    checksPass (initWriteChecks kd0 0 init_grid_fcn) ∧
    (warp_TestInitWrite kd0 0 init_grid_fcn none).ret = 1 := by
  have hp : checksPass (initWriteChecks kd0 0 init_grid_fcn) := by
    unfold checksPass initWriteChecks
    intro c hc
    simp only [List.mem_singleton] at hc
    rw [hc]
    show decide ((init_grid_fcn kd0 0).sol.length = (init_grid_fcn kd0 0).n) = true
    rw [decide_eq_true_eq]
    unfold init_grid_fcn
    rw [List.length_map, List.length_range]
  exact ⟨hp, (test_return_convention kd0 0 (1/10) (1/5) init_grid_fcn none
    copy_grid_fcn sum_grid_fcn dot_grid_fcn gridfcn_BufSize gridfcn_BufPack
    gridfcn_BufUnpack gridfcn_Coarsen gridfcn_Refine).1.mpr hp⟩

/-- C10: every test routine taking a write callback accepts NULL
(`none`) for it — no writing occurs, yet the test still runs and
returns the same result as with any supplied callback — and
`warp_TestAll` accepts NULL coarsen and refine callbacks, in which case
the coarsen/refine test is skipped (the overall result is decided by
the five remaining subtests) rather than failed. -/
theorem null_write_callbacks (app : advection_setup) (t fdt cdt : ℚ)
    (init : PtFcnInit) (w : PtFcnWrite) (clone : PtFcnClone)
    (sum : PtFcnSum) (dot : PtFcnDot) (bufsize : PtFcnBufSize)
    (bufpack : PtFcnBufPack) (bufunpack : PtFcnBufUnpack) :
    ((warp_TestInitWrite app t init none).ret =
       (warp_TestInitWrite app t init (some w)).ret ∧
     (warp_TestInitWrite app t init none).written = []) ∧
    ((warp_TestClone app t init none clone).ret =
       (warp_TestClone app t init (some w) clone).ret ∧
     (warp_TestClone app t init none clone).written = []) ∧
    ((warp_TestSum app t init none clone sum).ret =
       (warp_TestSum app t init (some w) clone sum).ret ∧
     (warp_TestSum app t init none clone sum).written = []) ∧
    (∀ crsn rfn : PtFcnCoarsen,
      (warp_TestCoarsenRefine app t fdt cdt init none clone sum dot crsn rfn).ret =
        (warp_TestCoarsenRefine app t fdt cdt init (some w) clone sum dot crsn rfn).ret ∧
      (warp_TestCoarsenRefine app t fdt cdt init none clone sum dot crsn rfn).written = []) ∧
    ((warp_TestAll app t fdt cdt init clone sum dot bufsize bufpack bufunpack
        none none).ret = 1 ↔
      ((warp_TestInitWrite app t init none).ret = 1 ∧
       (warp_TestClone app t init none clone).ret = 1 ∧
       (warp_TestSum app t init none clone sum).ret = 1 ∧
       (warp_TestDot app t init clone sum dot).ret = 1 ∧
       (warp_TestBuf app t init sum dot bufsize bufpack bufunpack).ret = 1)) ∧
    "TestAll: skipping TestCoarsenRefine" ∈
      (warp_TestAll app t fdt cdt init clone sum dot bufsize bufpack
        bufunpack none none).log := by
  have hall : warp_TestAll app t fdt cdt init clone sum dot bufsize bufpack
      bufunpack none none =
    { ret := if ((warp_TestInitWrite app t init none).ret = 1 ∧
                 (warp_TestClone app t init none clone).ret = 1 ∧
                 (warp_TestSum app t init none clone sum).ret = 1 ∧
                 (warp_TestDot app t init clone sum dot).ret = 1 ∧
                 (warp_TestBuf app t init sum dot bufsize bufpack bufunpack).ret = 1)
              then 1 else 0
      log := (warp_TestInitWrite app t init none).log ++
             (warp_TestClone app t init none clone).log ++
             (warp_TestSum app t init none clone sum).log ++
             (warp_TestDot app t init clone sum dot).log ++
             (warp_TestBuf app t init sum dot bufsize bufpack bufunpack).log ++
             ["TestAll: skipping TestCoarsenRefine"]
      written := [] } := rfl
  refine ⟨⟨rfl, rfl⟩, ⟨rfl, rfl⟩, ⟨rfl, rfl⟩, fun crsn rfn => ⟨rfl, rfl⟩, ?_, ?_⟩
  · rw [hall]
    by_cases hp : ((warp_TestInitWrite app t init none).ret = 1 ∧
      (warp_TestClone app t init none clone).ret = 1 ∧
      (warp_TestSum app t init none clone sum).ret = 1 ∧
      (warp_TestDot app t init clone sum dot).ret = 1 ∧
      (warp_TestBuf app t init sum dot bufsize bufpack bufunpack).ret = 1)
    · simp only [if_pos hp]
      simpa using hp
    · simp only [if_neg hp]
      constructor
      · intro h0; norm_num at h0
      · intro hq; exact absurd hq hp
  · rw [hall]
    simp

/-- C10 witness: `warp_TestAll` with NULL coarsen/refine callbacks in
the sample context logs the skip diagnostic, and the no-write runs emit
nothing. -/
theorem null_write_callbacks_witness :
    (warp_TestInitWrite kd0 0 init_grid_fcn none).written = [] ∧
    "TestAll: skipping TestCoarsenRefine" ∈
      (warp_TestAll kd0 0 (1/10) (1/5) init_grid_fcn copy_grid_fcn
        sum_grid_fcn dot_grid_fcn gridfcn_BufSize gridfcn_BufPack
        gridfcn_BufUnpack none none).log := by
  have h := null_write_callbacks kd0 0 (1/10) (1/5) init_grid_fcn
    (fun _ _ _ => []) copy_grid_fcn sum_grid_fcn dot_grid_fcn
    gridfcn_BufSize gridfcn_BufPack gridfcn_BufUnpack
  exact ⟨h.1.2, h.2.2.2.2.2⟩
